import Mathlib

/-!
# MCP3008 exporter: bus reader and sample collector

A shallow embedding of `main.go`: the SPI exchange that reads one channel of the
MCP3008 (`readMCP3008`), the eight-channel sweep (`readAllChannels`) and the
Prometheus collector built on top of it (`newMcp3008Collector`, `Describe`,
`Collect`).

The SPI connection (`spi.Conn`, an interface of periph.io) is taken as a
parameter: a bus is the sequence of outcomes its successive `Tx` calls will
have, together with the record of the command frames transmitted so far.
-/

namespace Mcp3008

/-! ## The bus -/

/-- What one call `c.Tx(tx, rx)` with a 3-byte `rx` leaves behind: the three
bytes of `rx` after the call and the returned error (`none` is Go's `nil`). -/
structure TxOutcome (ε : Type) where
  rx0 : Fin 256
  rx1 : Fin 256
  rx2 : Fin 256
  err : Option ε

/-- An `spi.Conn`. The field `outcomes n` is the outcome of the transfer that is
performed when `n` transfers have already taken place; `log` lists the command
frames transmitted so far, oldest first. -/
structure Conn (ε : Type) where
  outcomes : Nat → TxOutcome ε
  log : List (List Nat)

/-- One full-duplex transfer `c.Tx(tx, rx)`: the frame `tx` goes on the wire and
the next outcome of the bus is delivered. -/
def Conn.Tx {ε : Type} (c : Conn ε) (tx : List Nat) : Conn ε × TxOutcome ε :=
  ({ c with log := c.log ++ [tx] }, c.outcomes c.log.length)

/-- The Go conversion `byte(x)` of an `int`: the low 8 bits. Because 256 divides
`2^w` for the width `w` of `int`, wrap-around of the `int` arithmetic before
the conversion does not change the result, so `int` is modelled by `Int`. -/
def byte (x : Int) : Nat := (x % 256).toNat

/-! ## Bus reader -/

/-- Result of `readMCP3008`: the bus afterwards and Go's `(int, error)`. -/
structure ReadResult (ε : Type) where
  c : Conn ε
  data : Int
  err : Option ε

/-- The function `readMCP3008(c, channel)`. -/
def readMCP3008 {ε : Type} (c : Conn ε) (channel : Int) : ReadResult ε :=
  let tx : List Nat := [1, byte ((8 + channel) <<< (4 : Int)), 0]
  match c.Tx tx with
  | (c1, out) =>
    match out.err with
    | some err => { c := c1, data := -1, err := some err }
    | none =>
      let data : Nat := ((out.rx1.val <<< 8) ||| out.rx2.val) &&& 0x3FF
      { c := c1, data := (data : Int), err := none }

/-- Result of `readAllChannels`: the bus afterwards and Go's `([]int, error)`;
the `nil` slice is the empty list. -/
structure SweepResult (ε : Type) where
  c : Conn ε
  values : List Int
  err : Option ε

/-- The body of the `for channel := 0; channel < 8; channel++` loop of
`readAllChannels`, run over the channels still to be read. -/
def readAllChannels.loop {ε : Type} (c : Conn ε) (values : List Int) :
    List Nat → SweepResult ε
  | [] => { c := c, values := values, err := none }
  | channel :: rest =>
    match readMCP3008 c (channel : Int) with
    | { c := c1, data := data, err := err } =>
      match err with
      | some e => { c := c1, values := [], err := some e }
      | none => readAllChannels.loop c1 (values.set channel data) rest

/-- The function `readAllChannels(c)`. -/
def readAllChannels {ε : Type} (c : Conn ε) : SweepResult ε :=
  readAllChannels.loop c (List.replicate 8 0) (List.range 8)

/-! ## Collector -/

/-- A `prometheus.Desc` as built by `prometheus.NewDesc(fqName, help, nil, nil)`. -/
structure Desc where
  fqName : String
  help : String
deriving DecidableEq, Repr

/-- The call `prometheus.NewDesc(fqName, help, nil, nil)`. -/
def NewDesc (fqName help : String) : Desc := { fqName := fqName, help := help }

/-- The `prometheus.ValueType` enumeration. -/
inductive ValueType where
  | CounterValue
  | GaugeValue
  | UntypedValue
deriving DecidableEq, Repr

/-- The conversion `float64(value)` of an `int`, as the number the result
denotes. The conversion is exact for every `value` of magnitude at most `2^53`. -/
def float64 (value : Int) : ℚ := (value : ℚ)

/-- A constant metric as built by `prometheus.MustNewConstMetric`. -/
structure Metric where
  desc : Desc
  valueType : ValueType
  value : ℚ
deriving DecidableEq

/-- The call `prometheus.MustNewConstMetric(desc, valueType, value)` with no
label values. -/
def MustNewConstMetric (desc : Desc) (valueType : ValueType) (value : ℚ) : Metric :=
  { desc := desc, valueType := valueType, value := value }

/-- The `collector` struct: the bus and the array `descs [8]*prometheus.Desc`. -/
structure collector (ε : Type) where
  c : Conn ε
  descs : List Desc

/-- The function `newMcp3008Collector(c)`. -/
def newMcp3008Collector {ε : Type} (c : Conn ε) : collector ε :=
  { c := c
    descs := (List.range 8).map fun i =>
      NewDesc ("mcp3008_channel_" ++ toString i)
        ("Current value of the MCP3008 channel " ++ toString i) }

/-- The method `Describe`: the descriptors sent on `ch`, in the order sent. -/
def collector.Describe {ε : Type} (c : collector ε) : List Desc :=
  c.descs

/-- What one call of `Collect` does: the collector afterwards (its bus has
moved on), the metrics sent on `ch` in the order sent, the error handed to
`log.Println` if any, and whether the call stopped on an index out of range. -/
structure CollectResult (ε : Type) where
  c : collector ε
  sent : List Metric
  logged : Option ε
  panicked : Bool

/-- The loop `for i, value := range values` of `Collect`, from index `i` on:
the metrics sent, and whether `c.descs[i]` went out of range. -/
def collector.Collect.loop (descs : List Desc) : Nat → List Int → List Metric × Bool
  | _, [] => ([], false)
  | i, value :: rest =>
    match descs[i]? with
    | none => ([], true)
    | some desc =>
      match collector.Collect.loop descs (i + 1) rest with
      | (sent, panicked) =>
        (MustNewConstMetric desc ValueType.GaugeValue (float64 value) :: sent, panicked)

/-- The method `Collect`. -/
def collector.Collect {ε : Type} (c : collector ε) : CollectResult ε :=
  match readAllChannels c.c with
  | { c := c1, values := values, err := err } =>
    match err with
    | some e => { c := { c with c := c1 }, sent := [], logged := some e, panicked := false }
    | none =>
      match collector.Collect.loop c.descs 0 values with
      | (sent, panicked) =>
        { c := { c with c := c1 }, sent := sent, logged := none, panicked := panicked }

/-! ## The protocol as the specification words it -/

/-- The decode in the words of the specification: `((byte1 & 0x03) << 8) | byte2`. -/
def specDecode (byte1 byte2 : Nat) : Nat := ((byte1 &&& 0x03) <<< 8) ||| byte2

/-- The command frame in the words of the specification: `0x01`, then
`(8 + c) << 4`, then `0x00`. -/
def specFrame (c : Nat) : List Nat := [0x01, (8 + c) <<< 4, 0x00]

/-- The reading the specification assigns to a response. -/
def TxOutcome.reading {ε : Type} (o : TxOutcome ε) : Nat := specDecode o.rx1.val o.rx2.val

/-! ## Test buses -/

/-- A bus on which every transfer succeeds and answers `rx0 rx1 rx2`. -/
def constBus (rx0 rx1 rx2 : Fin 256) : Conn String :=
  { outcomes := fun _ => { rx0 := rx0, rx1 := rx1, rx2 := rx2, err := none }, log := [] }

/-- The bus `c` met after it has already carried the frames `past`: its next
responses are those `c` gives first. -/
def withPast {ε : Type} (c : Conn ε) (past : List (List Nat)) : Conn ε :=
  { outcomes := fun n => c.outcomes (n - past.length), log := past }

/-- A bus whose transfer number `k` (counting from 0) fails with `"EIO"`, every
other transfer answering `0x00 0xFF n` for transfer number `n`. -/
def failAt (k : Nat) : Conn String :=
  { outcomes := fun n =>
      { rx0 := 0, rx1 := 0xFF, rx2 := Fin.ofNat n, err := if n = k then some "EIO" else none }
    log := [] }

/-! ## Facts about one read -/

/-- The decode of the source, `(rx1 << 8 | rx2) & 0x3FF`, is the ten-bit number
made of the low two bits of `rx1` above the eight bits of `rx2`. -/
theorem decode_eq (a b : Nat) (hb : b < 256) :
    ((a <<< 8) ||| b) &&& 0x3FF = ((a &&& 0x03) <<< 8) ||| b := by
  have h3 : a &&& 0x03 = a % 4 := Nat.and_pow_two_sub_one_eq_mod a 2
  have h10 : ∀ x : Nat, x &&& 0x3FF = x % 1024 := fun x => Nat.and_pow_two_sub_one_eq_mod x 10
  have hor : ∀ x : Nat, (x <<< 8) ||| b = 256 * x + b := fun x => by
    rw [Nat.shiftLeft_eq, Nat.mul_comm]
    exact (Nat.mul_add_lt_is_or (i := 8) hb x).symm
  rw [h3, h10, hor, hor]
  omega

/-- The decode of the source never exceeds 1023. -/
theorem decode_le (a b : Nat) : ((a <<< 8) ||| b) &&& 0x3FF ≤ 1023 := by
  have h : ((a <<< 8) ||| b) &&& 0x3FF < 2 ^ 10 := Nat.and_lt_two_pow _ (by norm_num)
  omega

/-- The bus after one read: exactly one frame has been appended to the log. -/
theorem readMCP3008_c {ε : Type} (c : Conn ε) (channel : Int) :
    (readMCP3008 c channel).c
      = { c with log := c.log ++ [[1, byte ((8 + channel) <<< (4 : Int)), 0]] } := by
  unfold readMCP3008 Conn.Tx
  dsimp only
  cases (c.outcomes c.log.length).err <;> rfl

/-- The error of one read is the error of its transfer. -/
theorem readMCP3008_err {ε : Type} (c : Conn ε) (channel : Int) :
    (readMCP3008 c channel).err = (c.outcomes c.log.length).err := by
  unfold readMCP3008 Conn.Tx
  dsimp only
  cases (c.outcomes c.log.length).err <;> rfl

/-- The value of one read whose transfer succeeded. -/
theorem readMCP3008_data {ε : Type} (c : Conn ε) (channel : Int)
    (h : (c.outcomes c.log.length).err = none) :
    (readMCP3008 c channel).data
      = ((((c.outcomes c.log.length).rx1.val <<< 8) ||| (c.outcomes c.log.length).rx2.val)
          &&& 0x3FF : Nat) := by
  unfold readMCP3008 Conn.Tx
  dsimp only
  rw [h]

/-- The value of one read whose transfer failed. -/
theorem readMCP3008_data_fail {ε : Type} (c : Conn ε) (channel : Int) (e : ε)
    (h : (c.outcomes c.log.length).err = some e) :
    (readMCP3008 c channel).data = -1 := by
  unfold readMCP3008 Conn.Tx
  dsimp only
  rw [h]

/-- A read whose transfer succeeded, in full. -/
theorem readMCP3008_ok {ε : Type} (c : Conn ε) (channel : Int)
    (h : (c.outcomes c.log.length).err = none) :
    readMCP3008 c channel
      = { c := { c with log := c.log ++ [[1, byte ((8 + channel) <<< (4 : Int)), 0]] }
          data := ((((c.outcomes c.log.length).rx1.val <<< 8)
                    ||| (c.outcomes c.log.length).rx2.val) &&& 0x3FF : Nat)
          err := none } := by
  unfold readMCP3008 Conn.Tx
  dsimp only
  rw [h]

/-- A read whose transfer failed, in full. -/
theorem readMCP3008_fail {ε : Type} (c : Conn ε) (channel : Int) (e : ε)
    (h : (c.outcomes c.log.length).err = some e) :
    readMCP3008 c channel
      = { c := { c with log := c.log ++ [[1, byte ((8 + channel) <<< (4 : Int)), 0]] }
          data := -1
          err := some e } := by
  unfold readMCP3008 Conn.Tx
  dsimp only
  rw [h]

/-- For a channel of the sweep the command byte is `(8 + channel) << 4`, which
fits in a byte. -/
theorem byte_command (k : Nat) (hk : k ≤ 7) :
    byte ((8 + (k : Int)) <<< (4 : Int)) = (8 + k) <<< 4 := by
  interval_cases k <;> decide

/-! ## Facts about the sweep -/

/-- The `values` array after storing, for each channel of the list in turn, the
decode of the outcome number `n`, `n + 1`, and so on. -/
def stored {ε : Type} (out : Nat → TxOutcome ε) : Nat → List Int → List Nat → List Int
  | _, values, [] => values
  | n, values, channel :: rest =>
    stored out (n + 1)
      (values.set channel ((((out n).rx1.val <<< 8) ||| (out n).rx2.val) &&& 0x3FF : Nat)) rest

/-- One turn of the sweep loop whose transfer succeeded. -/
theorem loop_cons_ok {ε : Type} (c : Conn ε) (values : List Int) (channel : Nat)
    (rest : List Nat) (h : (c.outcomes c.log.length).err = none) :
    readAllChannels.loop c values (channel :: rest)
      = readAllChannels.loop
          { c with log := c.log ++ [[1, byte ((8 + (channel : Int)) <<< (4 : Int)), 0]] }
          (values.set channel ((((c.outcomes c.log.length).rx1.val <<< 8)
                    ||| (c.outcomes c.log.length).rx2.val) &&& 0x3FF : Nat)) rest := by
  rw [readAllChannels.loop, readMCP3008_ok c channel h]

/-- One turn of the sweep loop whose transfer failed. -/
theorem loop_cons_fail {ε : Type} (c : Conn ε) (values : List Int) (channel : Nat)
    (rest : List Nat) (e : ε) (h : (c.outcomes c.log.length).err = some e) :
    readAllChannels.loop c values (channel :: rest)
      = { c := { c with log := c.log ++ [[1, byte ((8 + (channel : Int)) <<< (4 : Int)), 0]] }
          values := []
          err := some e } := by
  rw [readAllChannels.loop, readMCP3008_fail c channel e h]

/-- The sweep loop over channels whose transfers all succeed. -/
theorem loop_ok {ε : Type} (chs : List Nat) :
    ∀ (c : Conn ε) (values : List Int),
      (∀ j, j < chs.length → (c.outcomes (c.log.length + j)).err = none) →
      readAllChannels.loop c values chs
        = { c := { c with
                   log := c.log ++ chs.map fun (ch : Nat) =>
                     [1, byte ((8 + (ch : Int)) <<< (4 : Int)), 0] }
            values := stored c.outcomes c.log.length values chs
            err := none } := by
  induction chs with
  | nil =>
    intro c values _
    simp [readAllChannels.loop, stored]
  | cons ch rest ih =>
    intro c values h
    have h0 : (c.outcomes c.log.length).err = none := by
      simpa using h 0 (by simp)
    rw [loop_cons_ok c values ch rest h0, ih]
    · simp [stored]
    · intro j hj
      have := h (j + 1) (by simpa using hj)
      simpa [Nat.add_assoc, Nat.add_comm 1 j] using this

/-- The sweep loop when the transfers of the channels `pre` succeed and the
transfer of the next channel `k` fails. -/
theorem loop_fail {ε : Type} (pre : List Nat) (k : Nat) (post : List Nat) (e : ε) :
    ∀ (c : Conn ε) (values : List Int),
      (∀ j, j < pre.length → (c.outcomes (c.log.length + j)).err = none) →
      (c.outcomes (c.log.length + pre.length)).err = some e →
      readAllChannels.loop c values (pre ++ k :: post)
        = { c := { c with
                   log := c.log ++ (pre ++ [k]).map fun (ch : Nat) =>
                     [1, byte ((8 + (ch : Int)) <<< (4 : Int)), 0] }
            values := []
            err := some e } := by
  induction pre with
  | nil =>
    intro c values _ hk
    have hk0 : (c.outcomes c.log.length).err = some e := by simpa using hk
    rw [List.nil_append, loop_cons_fail c values k post e hk0]
    simp
  | cons ch rest ih =>
    intro c values h hk
    have h0 : (c.outcomes c.log.length).err = none := by
      simpa using h 0 (by simp)
    rw [List.cons_append, loop_cons_ok c values ch (rest ++ k :: post) h0, ih]
    · simp
    · intro j hj
      have := h (j + 1) (by simpa using hj)
      simpa [Nat.add_assoc, Nat.add_comm 1 j] using this
    · simpa [Nat.add_assoc, Nat.add_comm 1 rest.length] using hk

/-- The channels of the sweep, split at channel `k`. -/
theorem range_split (k : Nat) (hk : k < 8) :
    List.range 8 = List.range k ++ k :: List.range' (k + 1) (7 - k) := by
  interval_cases k <;> rfl

/-- On response bytes the decode of the source is the decode of the specification. -/
theorem decode_reading {ε : Type} (o : TxOutcome ε) :
    ((o.rx1.val <<< 8) ||| o.rx2.val) &&& 0x3FF = o.reading :=
  decode_eq o.rx1.val o.rx2.val o.rx2.isLt

/-- A reading never exceeds 1023. -/
theorem reading_le {ε : Type} (o : TxOutcome ε) : o.reading ≤ 1023 := by
  rw [← decode_reading]
  exact decode_le _ _

/-- The frames of the channels `0 .. m-1`, for `m ≤ 8`, are the frames of the
specification. -/
theorem frames_eq (m : Nat) (hm : m ≤ 8) :
    ((List.range m).map fun (ch : Nat) => [1, byte ((8 + (ch : Int)) <<< (4 : Int)), 0])
      = (List.range m).map specFrame := by
  apply List.map_congr_left
  intro ch hch
  have h7 : ch ≤ 7 := by
    have := List.mem_range.mp hch
    omega
  simp [specFrame, byte_command ch h7]

/-- A sweep all of whose transfers succeed. -/
theorem readAllChannels_ok {ε : Type} (c : Conn ε)
    (h : ∀ j, j < 8 → (c.outcomes (c.log.length + j)).err = none) :
    readAllChannels c
      = { c := { c with log := c.log ++ (List.range 8).map specFrame }
          values := (List.range 8).map fun j => ((c.outcomes (c.log.length + j)).reading : Int)
          err := none } := by
  unfold readAllChannels
  rw [loop_ok (List.range 8) c _ (by simpa using h), frames_eq 8 (le_refl 8)]
  congr 1
  simp only [← decode_reading]
  rfl

/-- A sweep whose first failing transfer is that of channel `k`. -/
theorem readAllChannels_fail {ε : Type} (c : Conn ε) (k : Nat) (hk : k < 8) (e : ε)
    (hpre : ∀ j, j < k → (c.outcomes (c.log.length + j)).err = none)
    (hfail : (c.outcomes (c.log.length + k)).err = some e) :
    readAllChannels c
      = { c := { c with log := c.log ++ (List.range (k + 1)).map specFrame }
          values := []
          err := some e } := by
  unfold readAllChannels
  rw [range_split k hk,
    loop_fail (List.range k) k _ e c _ (by simpa using hpre) (by simpa using hfail),
    ← List.range_succ, frames_eq (k + 1) hk]

/-- When not every transfer of a sweep succeeds there is a first one that fails. -/
theorem first_failure {ε : Type} (c : Conn ε)
    (h : ¬ ∀ j, j < 8 → (c.outcomes (c.log.length + j)).err = none) :
    ∃ k, k < 8 ∧ (∀ j, j < k → (c.outcomes (c.log.length + j)).err = none)
      ∧ ∃ e, (c.outcomes (c.log.length + k)).err = some e := by
  classical
  have hex : ∃ k, k < 8 ∧ (c.outcomes (c.log.length + k)).err ≠ none := by
    by_contra hne
    apply h
    intro j hj
    by_contra hj2
    exact hne ⟨j, hj, hj2⟩
  refine ⟨Nat.find hex, (Nat.find_spec hex).1, ?_, ?_⟩
  · intro j hj
    by_contra hj2
    exact Nat.find_min hex hj ⟨lt_trans hj (Nat.find_spec hex).1, hj2⟩
  · exact Option.ne_none_iff_exists'.mp (Nat.find_spec hex).2

/-! ## Facts about one collect cycle -/

/-- A collect cycle whose sweep fails first on channel `k`: nothing is sent and
the error is logged. -/
theorem Collect_fail {ε : Type} (col : collector ε) (k : Nat) (hk : k < 8) (e : ε)
    (hpre : ∀ j, j < k → (col.c.outcomes (col.c.log.length + j)).err = none)
    (hfail : (col.c.outcomes (col.c.log.length + k)).err = some e) :
    col.Collect
      = { c := { col with
                 c := { col.c with log := col.c.log ++ (List.range (k + 1)).map specFrame } }
          sent := []
          logged := some e
          panicked := false } := by
  unfold collector.Collect
  rw [readAllChannels_fail col.c k hk e hpre hfail]

/-- The send loop of `Collect` on the descriptors of `newMcp3008Collector` and
eight values. -/
theorem Collect_loop_eight {ε : Type} (c : Conn ε) (v : Nat → Int) :
    collector.Collect.loop (newMcp3008Collector c).descs 0 ((List.range 8).map v)
      = ((List.range 8).map fun i =>
          { desc := { fqName := "mcp3008_channel_" ++ toString i
                      help := "Current value of the MCP3008 channel " ++ toString i }
            valueType := ValueType.GaugeValue
            value := (v i : ℚ) }, false) := by
  rfl

/-- A collect cycle all of whose transfers succeed, on a collector built by
`newMcp3008Collector`. -/
theorem Collect_ok {ε : Type} (c : Conn ε)
    (h : ∀ j, j < 8 → (c.outcomes (c.log.length + j)).err = none) :
    (newMcp3008Collector c).Collect
      = { c := newMcp3008Collector { c with log := c.log ++ (List.range 8).map specFrame }
          sent := (List.range 8).map fun i =>
            { desc := { fqName := "mcp3008_channel_" ++ toString i
                        help := "Current value of the MCP3008 channel " ++ toString i }
              valueType := ValueType.GaugeValue
              value := ((c.outcomes (c.log.length + i)).reading : ℚ) }
          logged := none
          panicked := false } := by
  unfold collector.Collect
  have hr := readAllChannels_ok c h
  change readAllChannels (newMcp3008Collector c).c = _ at hr
  rw [hr]
  dsimp only
  rw [Collect_loop_eight c fun j => ((c.outcomes (c.log.length + j)).reading : Int)]
  simp only [Int.cast_natCast]
  rfl

/-! ## The bus reader -/

/-- C1: when the transfer of `readMCP3008` succeeds and leaves the response bytes
`rx0 rx1 rx2`, the call returns no error and the reading
`((rx1 & 0x03) << 8) | rx2`, for every channel (in particular every channel in
`[0,7]`); any other successful read whose response has the same low two bits of
byte 1 and the same byte 2 returns the same reading, whatever its byte 0, the
upper six bits of its byte 1 and its channel. -/
theorem readMCP3008_returns_reading {ε : Type} (c : Conn ε) (channel : Int)
    (rx0 rx1 rx2 : Fin 256)
    (hrx : c.outcomes c.log.length = { rx0 := rx0, rx1 := rx1, rx2 := rx2, err := none }) :
    (readMCP3008 c channel).err = none
      ∧ (readMCP3008 c channel).data = ((((rx1.val &&& 0x03) <<< 8) ||| rx2.val : Nat) : Int)
      ∧ ∀ (c2 : Conn ε) (channel2 : Int) (rx0b rx1b : Fin 256),
          c2.outcomes c2.log.length = { rx0 := rx0b, rx1 := rx1b, rx2 := rx2, err := none } →
          rx1b.val &&& 0x03 = rx1.val &&& 0x03 →
          (readMCP3008 c2 channel2).data = (readMCP3008 c channel).data := by
  have key : ∀ (d : Conn ε) (ch : Int) (a0 a1 a2 : Fin 256),
      d.outcomes d.log.length = { rx0 := a0, rx1 := a1, rx2 := a2, err := none } →
      (readMCP3008 d ch).data = ((((a1.val &&& 0x03) <<< 8) ||| a2.val : Nat) : Int) := by
    intro d ch a0 a1 a2 hd
    have hok : (d.outcomes d.log.length).err = none := by rw [hd]
    rw [readMCP3008_data d ch hok, decode_reading, hd]
    rfl
  refine ⟨?_, key c channel rx0 rx1 rx2 hrx, ?_⟩
  · rw [readMCP3008_err, hrx]
  · intro c2 channel2 rx0b rx1b h2 hlow
    rw [key c2 channel2 rx0b rx1b rx2 h2, key c channel rx0 rx1 rx2 hrx, hlow]

/-- Witness for C1: the response `0x00 0xFF 0xFF` reads as 1023. -/
theorem readMCP3008_returns_reading_witness :
    (readMCP3008 (constBus 0 0xFF 0xFF) 0).err = none
      ∧ (readMCP3008 (constBus 0 0xFF 0xFF) 0).data = 1023 :=
  ⟨(readMCP3008_returns_reading (constBus 0 0xFF 0xFF) 0 0 0xFF 0xFF rfl).1,
   (readMCP3008_returns_reading (constBus 0 0xFF 0xFF) 0 0 0xFF 0xFF rfl).2.1⟩

/-- C2: for every channel `k` in `[0,7]` the one frame `readMCP3008` puts on the
bus is `[0x01, (8 + k) << 4, 0x00]`, whatever the outcome of the transfer; the
middle value is below 256, its bit 7 is set, its bits 6..4 are `k` and its low
nibble is 0; it is `0x80` for channel 0 and `0xF0` for channel 7. -/
theorem readMCP3008_command_frame {ε : Type} (c : Conn ε) (k : Nat) (hk : k ≤ 7) :
    (readMCP3008 c (k : Int)).c.log = c.log ++ [[0x01, (8 + k) <<< 4, 0x00]]
      ∧ (8 + k) <<< 4 < 256
      ∧ ((8 + k) <<< 4) &&& 0x80 = 0x80
      ∧ (((8 + k) <<< 4) >>> 4) &&& 0x07 = k
      ∧ ((8 + k) <<< 4) &&& 0x0F = 0
      ∧ (k = 0 → (readMCP3008 c (k : Int)).c.log = c.log ++ [[0x01, 0x80, 0x00]])
      ∧ (k = 7 → (readMCP3008 c (k : Int)).c.log = c.log ++ [[0x01, 0xF0, 0x00]]) := by
  have hlog : (readMCP3008 c (k : Int)).c.log = c.log ++ [[0x01, (8 + k) <<< 4, 0x00]] := by
    rw [readMCP3008_c, byte_command k hk]
  refine ⟨hlog, ?_, ?_, ?_, ?_, ?_, ?_⟩
  · interval_cases k <;> decide
  · interval_cases k <;> decide
  · interval_cases k <;> decide
  · interval_cases k <;> decide
  · intro h0
    rw [hlog, h0]
    rfl
  · intro h7
    rw [hlog, h7]
    rfl

/-- Witness for C2: channel 7 on a bus whose transfer fails. -/
theorem readMCP3008_command_frame_witness :
    (readMCP3008 (failAt 0) 7).c.log = [[0x01, 0xF0, 0x00]] :=
  (readMCP3008_command_frame (failAt 0) 7 (by decide)).2.2.2.2.2.2 rfl

/-- C3: a reading returned by a successful `readMCP3008` lies in `[0,1023]`,
whatever the channel and the response bytes, and so does every element of the
slice returned by a successful `readAllChannels`. -/
theorem readings_in_range {ε : Type} (c : Conn ε) (channel : Int) :
    ((readMCP3008 c channel).err = none →
        0 ≤ (readMCP3008 c channel).data ∧ (readMCP3008 c channel).data ≤ 1023)
      ∧ ((readAllChannels c).err = none →
          ∀ v, v ∈ (readAllChannels c).values → 0 ≤ v ∧ v ≤ 1023) := by
  constructor
  · intro herr
    rw [readMCP3008_err] at herr
    rw [readMCP3008_data c channel herr, decode_reading]
    have := reading_le (c.outcomes c.log.length)
    omega
  · intro herr v hv
    by_cases hall : ∀ j, j < 8 → (c.outcomes (c.log.length + j)).err = none
    · rw [readAllChannels_ok c hall] at hv
      obtain ⟨j, _, rfl⟩ := List.mem_map.mp hv
      have := reading_le (c.outcomes (c.log.length + j))
      omega
    · obtain ⟨k, hk, hpre, e, he⟩ := first_failure c hall
      rw [readAllChannels_fail c k hk e hpre he] at herr
      cases herr

/-- Witness for C3: a bus that answers `0xFF 0xFF 0xFF` every time. -/
theorem readings_in_range_witness :
    (0 ≤ (readMCP3008 (constBus 0xFF 0xFF 0xFF) 5).data
        ∧ (readMCP3008 (constBus 0xFF 0xFF 0xFF) 5).data ≤ 1023)
      ∧ ∀ v, v ∈ (readAllChannels (constBus 0xFF 0xFF 0xFF)).values → 0 ≤ v ∧ v ≤ 1023 :=
  ⟨(readings_in_range (constBus 0xFF 0xFF 0xFF) 5).1 (by decide),
   (readings_in_range (constBus 0xFF 0xFF 0xFF) 5).2 (by decide)⟩

/-! ## The collector -/

/-- The names of the eight descriptors `newMcp3008Collector` builds. -/
theorem descs_names :
    ((List.range 8).map fun i =>
        NewDesc ("mcp3008_channel_" ++ toString i)
          ("Current value of the MCP3008 channel " ++ toString i)).map (fun d => d.fqName)
      = ["mcp3008_channel_0", "mcp3008_channel_1", "mcp3008_channel_2",
         "mcp3008_channel_3", "mcp3008_channel_4", "mcp3008_channel_5",
         "mcp3008_channel_6", "mcp3008_channel_7"] := by
  decide

/-- The eight descriptor names are pairwise distinct. -/
theorem descs_names_nodup :
    (((List.range 8).map fun i =>
        NewDesc ("mcp3008_channel_" ++ toString i)
          ("Current value of the MCP3008 channel " ++ toString i)).map
        (fun d => d.fqName)).Nodup := by
  decide

/-- The name of the `i`-th descriptor is `mcp3008_channel_<i>`. -/
theorem descs_name_at (i : Nat) (hi : i < 8) :
    (((List.range 8).map fun i =>
        NewDesc ("mcp3008_channel_" ++ toString i)
          ("Current value of the MCP3008 channel " ++ toString i)).map
        (fun d => d.fqName))[i]? = some ("mcp3008_channel_" ++ toString i) := by
  interval_cases i <;> decide

/-- C4: on any collector, when the read of some channel `k` in `[0,7]` fails
after the reads of channels `0 .. k-1` succeeded, `Collect` sends no metric at
all (and logs the error); and `Collect` sends something only if all eight
transfers of the cycle succeeded. -/
theorem Collect_all_or_nothing {ε : Type} (col : collector ε) :
    (∀ k, k < 8 →
        (∀ j, j < k → (col.c.outcomes (col.c.log.length + j)).err = none) →
        (col.c.outcomes (col.c.log.length + k)).err ≠ none →
        col.Collect.sent = []
          ∧ col.Collect.logged = (col.c.outcomes (col.c.log.length + k)).err
          ∧ col.Collect.panicked = false)
      ∧ (col.Collect.sent ≠ [] →
          ∀ j, j < 8 → (col.c.outcomes (col.c.log.length + j)).err = none) := by
  constructor
  · intro k hk hpre hfail
    obtain ⟨e, he⟩ := Option.ne_none_iff_exists'.mp hfail
    rw [Collect_fail col k hk e hpre he, he]
    exact ⟨rfl, rfl, rfl⟩
  · intro hsent
    by_contra hall
    obtain ⟨k, hk, hpre, e, he⟩ := first_failure col.c hall
    rw [Collect_fail col k hk e hpre he] at hsent
    exact hsent rfl

/-- Witness for C4: a failure on channel 3 sends 0 values; a healthy bus sends
some, and all its eight transfers succeeded. -/
theorem Collect_all_or_nothing_witness :
    ((newMcp3008Collector (failAt 3)).Collect.sent = []
        ∧ (newMcp3008Collector (failAt 3)).Collect.logged = some "EIO"
        ∧ (newMcp3008Collector (failAt 3)).Collect.panicked = false)
      ∧ ∀ j, j < 8 → ((constBus 0 1 2).outcomes (0 + j)).err = none :=
  ⟨(Collect_all_or_nothing (newMcp3008Collector (failAt 3))).1 3 (by decide)
      (by decide) (by decide),
   (Collect_all_or_nothing (newMcp3008Collector (constBus 0 1 2))).2 (by decide)⟩

/-- C5: when all eight transfers of a cycle succeed, `Collect` on a collector
built by `newMcp3008Collector` sends exactly eight metrics, in channel order:
the `i`-th carries the descriptor `descs[i]`, named `mcp3008_channel_<i>`, the
gauge type, and as value the reading decoded from the response to the `i`-th
transaction of the cycle, which is the transaction of channel `i`; nothing is
logged. -/
theorem Collect_emits_eight {ε : Type} (c : Conn ε)
    (hall : ∀ j, j < 8 → (c.outcomes (c.log.length + j)).err = none) :
    (newMcp3008Collector c).Collect.sent
        = ((List.range 8).map fun i =>
            { desc := { fqName := "mcp3008_channel_" ++ toString i
                        help := "Current value of the MCP3008 channel " ++ toString i }
              valueType := ValueType.GaugeValue
              value := ((c.outcomes (c.log.length + i)).reading : ℚ) })
      ∧ (newMcp3008Collector c).Collect.sent.length = 8
      ∧ (newMcp3008Collector c).Collect.sent.map (fun m => m.desc)
          = (newMcp3008Collector c).descs
      ∧ (newMcp3008Collector c).Collect.sent.map (fun m => m.desc.fqName)
          = ["mcp3008_channel_0", "mcp3008_channel_1", "mcp3008_channel_2",
             "mcp3008_channel_3", "mcp3008_channel_4", "mcp3008_channel_5",
             "mcp3008_channel_6", "mcp3008_channel_7"]
      ∧ (newMcp3008Collector c).Collect.c.c.log = c.log ++ (List.range 8).map specFrame
      ∧ (newMcp3008Collector c).Collect.logged = none
      ∧ (newMcp3008Collector c).Collect.panicked = false := by
  rw [Collect_ok c hall]
  exact ⟨rfl, rfl, rfl, descs_names, rfl, rfl, rfl⟩

/-- Witness for C5: a bus that answers `0x00 0xFF n` to transfer number `n`. -/
theorem Collect_emits_eight_witness :
    (newMcp3008Collector (failAt 8)).Collect.sent.map (fun m => m.value)
      = [768, 769, 770, 771, 772, 773, 774, 775] := by
  rw [(Collect_emits_eight (failAt 8) (by decide)).1]
  decide

/-- C6: on a collector built by `newMcp3008Collector`, `Describe` sends exactly
eight descriptors, the `i`-th named `mcp3008_channel_<i>`; the eight names are
pairwise distinct; the sequence does not depend on the bus the collector was
built on, and it is the same again after a collect cycle. -/
theorem Describe_eight_stable {ε : Type} (c : Conn ε) :
    (newMcp3008Collector c).Describe.length = 8
      ∧ (newMcp3008Collector c).Describe.map (fun d => d.fqName)
          = ["mcp3008_channel_0", "mcp3008_channel_1", "mcp3008_channel_2",
             "mcp3008_channel_3", "mcp3008_channel_4", "mcp3008_channel_5",
             "mcp3008_channel_6", "mcp3008_channel_7"]
      ∧ (∀ i, i < 8 →
          ((newMcp3008Collector c).Describe.map (fun d => d.fqName))[i]?
            = some ("mcp3008_channel_" ++ toString i))
      ∧ ((newMcp3008Collector c).Describe.map (fun d => d.fqName)).Nodup
      ∧ (∀ c2 : Conn ε, (newMcp3008Collector c2).Describe = (newMcp3008Collector c).Describe)
      ∧ (newMcp3008Collector c).Collect.c.Describe = (newMcp3008Collector c).Describe := by
  refine ⟨rfl, descs_names, descs_name_at, descs_names_nodup, fun _ => rfl, ?_⟩
  · unfold collector.Collect
    dsimp only
    cases (readAllChannels (newMcp3008Collector c).c).err <;> rfl

/-- The bus after a collect cycle is the bus after its sweep, and the
descriptors are untouched. -/
theorem Collect_c {ε : Type} (col : collector ε) :
    col.Collect.c = { col with c := (readAllChannels col.c).c } := by
  unfold collector.Collect
  dsimp only
  cases (readAllChannels col.c).err <;> rfl

/-- The length of the log after `m` more frames. -/
theorem log_length {ε : Type} (c : Conn ε) (m : Nat) :
    (c.log ++ (List.range m).map specFrame).length = c.log.length + m := by
  simp

/-! ## Errors, transactions and successive cycles -/

/-- C7: the error `readMCP3008` returns is the error its bus transfer returned,
unchanged, so it returns an error exactly when the transfer does; when the
first failing transfer of a sweep is that of channel `k`, `readAllChannels`
returns that error unchanged together with the `nil` slice; when all eight
transfers succeed it returns no error. -/
theorem errors_propagate_unchanged {ε : Type} (c : Conn ε) (channel : Int) :
    (readMCP3008 c channel).err
        = (c.Tx [1, byte ((8 + channel) <<< (4 : Int)), 0]).2.err
      ∧ ((readMCP3008 c channel).err ≠ none
          ↔ (c.Tx [1, byte ((8 + channel) <<< (4 : Int)), 0]).2.err ≠ none)
      ∧ (∀ k e, k < 8 →
          (∀ j, j < k → (c.outcomes (c.log.length + j)).err = none) →
          (c.outcomes (c.log.length + k)).err = some e →
          (readAllChannels c).err = some e ∧ (readAllChannels c).values = [])
      ∧ ((∀ j, j < 8 → (c.outcomes (c.log.length + j)).err = none) →
          (readAllChannels c).err = none) := by
  have h1 : (readMCP3008 c channel).err
      = (c.Tx [1, byte ((8 + channel) <<< (4 : Int)), 0]).2.err := readMCP3008_err c channel
  refine ⟨h1, by rw [h1], ?_, ?_⟩
  · intro k e hk hpre hfail
    rw [readAllChannels_fail c k hk e hpre hfail]
    exact ⟨rfl, rfl⟩
  · intro hall
    rw [readAllChannels_ok c hall]

/-- Witness for C7: a sweep failing on channel 3 returns that error and no
values; a sweep on a healthy bus returns no error. -/
theorem errors_propagate_unchanged_witness :
    ((readAllChannels (failAt 3)).err = some "EIO" ∧ (readAllChannels (failAt 3)).values = [])
      ∧ (readAllChannels (constBus 0 1 2)).err = none :=
  ⟨(errors_propagate_unchanged (failAt 3) 0).2.2.1 3 "EIO" (by decide) (by decide) (by decide),
   (errors_propagate_unchanged (constBus 0 1 2) 0).2.2.2 (by decide)⟩

/-- C8: one call of `readMCP3008` adds exactly one frame to the record of the
bus, whether the transfer succeeds or fails; a collect cycle all of whose
transfers succeed adds exactly the eight frames of channels `0 .. 7`, in that
order; a cycle whose first failing transfer is that of channel `k` adds
exactly the `k + 1` frames of channels `0 .. k`, in that order, and nothing for
channels `k+1 .. 7`. -/
theorem transactions_per_cycle {ε : Type} (col : collector ε) :
    (∀ channel : Int,
        (readMCP3008 col.c channel).c.log
            = col.c.log ++ [[1, byte ((8 + channel) <<< (4 : Int)), 0]]
          ∧ (readMCP3008 col.c channel).c.log.length = col.c.log.length + 1)
      ∧ ((∀ j, j < 8 → (col.c.outcomes (col.c.log.length + j)).err = none) →
          col.Collect.c.c.log = col.c.log ++ (List.range 8).map specFrame
            ∧ col.Collect.c.c.log.length = col.c.log.length + 8)
      ∧ (∀ k, k < 8 →
          (∀ j, j < k → (col.c.outcomes (col.c.log.length + j)).err = none) →
          (col.c.outcomes (col.c.log.length + k)).err ≠ none →
          col.Collect.c.c.log = col.c.log ++ (List.range (k + 1)).map specFrame
            ∧ col.Collect.c.c.log.length = col.c.log.length + (k + 1)) := by
  refine ⟨?_, ?_, ?_⟩
  · intro channel
    rw [readMCP3008_c]
    simp
  · intro hall
    rw [Collect_c, readAllChannels_ok col.c hall]
    exact ⟨rfl, log_length col.c 8⟩
  · intro k hk hpre hfail
    obtain ⟨e, he⟩ := Option.ne_none_iff_exists'.mp hfail
    rw [Collect_c, readAllChannels_fail col.c k hk e hpre he]
    exact ⟨rfl, log_length col.c (k + 1)⟩

/-- Witness for C8: eight transactions on a healthy bus, four when channel 3
fails. -/
theorem transactions_per_cycle_witness :
    (newMcp3008Collector (constBus 0 1 2)).Collect.c.c.log
        = [[1, 0x80, 0], [1, 0x90, 0], [1, 0xA0, 0], [1, 0xB0, 0],
           [1, 0xC0, 0], [1, 0xD0, 0], [1, 0xE0, 0], [1, 0xF0, 0]]
      ∧ (newMcp3008Collector (failAt 3)).Collect.c.c.log
        = [[1, 0x80, 0], [1, 0x90, 0], [1, 0xA0, 0], [1, 0xB0, 0]] :=
  ⟨((transactions_per_cycle (newMcp3008Collector (constBus 0 1 2))).2.1 (by decide)).1,
   ((transactions_per_cycle (newMcp3008Collector (failAt 3))).2.2 3 (by decide)
      (by decide) (by decide)).1⟩

/-- C9: `Collect` keeps nothing from one cycle to the next. The collector a
cycle leaves behind is the collector `newMcp3008Collector` builds on the bus as
the sweep left it, so every cycle of a sequence starts from such a collector;
and what a cycle sends is fixed by the responses received during that cycle:
two cycles, on whatever buses with whatever past, that receive the same
responses send the same metrics. In particular two successive cycles on a bus
that always succeeds send eight values each, every one the decode of that
cycle's own response; and a cycle with eight successful transfers that follows
a cycle failed on channel 3 sends all eight values. -/
theorem Collect_memoryless {ε : Type} (c c2 : Conn ε) :
    ((newMcp3008Collector c).Collect.c = newMcp3008Collector (readAllChannels c).c
        ∧ (readAllChannels c).c.outcomes = c.outcomes)
      ∧ ((∀ j, j < 8 →
            (∀ i, i < j → (c.outcomes (c.log.length + i)).err = none) →
            c2.outcomes (c2.log.length + j) = c.outcomes (c.log.length + j)) →
          (newMcp3008Collector c2).Collect.sent = (newMcp3008Collector c).Collect.sent)
      ∧ ((∀ n, (c.outcomes n).err = none) →
          (newMcp3008Collector c).Collect.sent.map (fun m => m.value)
              = ((List.range 8).map fun i => ((c.outcomes (c.log.length + i)).reading : ℚ))
            ∧ (newMcp3008Collector c).Collect.c.Collect.sent.map (fun m => m.value)
              = ((List.range 8).map fun i =>
                  ((c.outcomes (c.log.length + 8 + i)).reading : ℚ)))
      ∧ ((∀ j, j < 3 → (c.outcomes (c.log.length + j)).err = none) →
          (c.outcomes (c.log.length + 3)).err ≠ none →
          (∀ j, j < 8 → (c.outcomes (c.log.length + 4 + j)).err = none) →
          (newMcp3008Collector c).Collect.sent = []
            ∧ (newMcp3008Collector c).Collect.c.Collect.sent.length = 8
            ∧ (newMcp3008Collector c).Collect.c.Collect.sent.map (fun m => m.value)
              = ((List.range 8).map fun i =>
                  ((c.outcomes (c.log.length + 4 + i)).reading : ℚ))) := by
  have hstate : (newMcp3008Collector c).Collect.c = newMcp3008Collector (readAllChannels c).c :=
    Collect_c (newMcp3008Collector c)
  have hout : (readAllChannels c).c.outcomes = c.outcomes := by
    by_cases hall : ∀ j, j < 8 → (c.outcomes (c.log.length + j)).err = none
    · rw [readAllChannels_ok c hall]
    · obtain ⟨k, hk, hpre, e, he⟩ := first_failure c hall
      rw [readAllChannels_fail c k hk e hpre he]
  refine ⟨⟨hstate, hout⟩, ?_, ?_, ?_⟩
  · intro hsame
    by_cases hall : ∀ j, j < 8 → (c.outcomes (c.log.length + j)).err = none
    · have hwin : ∀ j, j < 8 → c2.outcomes (c2.log.length + j) = c.outcomes (c.log.length + j) :=
        fun j hj => hsame j hj fun i hi => hall i (lt_trans hi hj)
      have hall2 : ∀ j, j < 8 → (c2.outcomes (c2.log.length + j)).err = none :=
        fun j hj => by rw [hwin j hj]; exact hall j hj
      rw [Collect_ok c hall, Collect_ok c2 hall2]
      dsimp only
      apply List.map_congr_left
      intro i hi
      rw [hwin i (List.mem_range.mp hi)]
    · obtain ⟨k, hk, hpre, e, he⟩ := first_failure c hall
      have hwin : ∀ j, j ≤ k → c2.outcomes (c2.log.length + j) = c.outcomes (c.log.length + j) :=
        fun j hj => hsame j (lt_of_le_of_lt hj hk) fun i hi => hpre i (lt_of_lt_of_le hi hj)
      have hpre2 : ∀ j, j < k → (c2.outcomes (c2.log.length + j)).err = none :=
        fun j hj => by rw [hwin j (le_of_lt hj)]; exact hpre j hj
      have he2 : (c2.outcomes (c2.log.length + k)).err = some e := by
        rw [hwin k (le_refl k)]; exact he
      rw [Collect_fail (newMcp3008Collector c) k hk e hpre he,
        Collect_fail (newMcp3008Collector c2) k hk e hpre2 he2]
  · intro hhealthy
    have hall : ∀ j, j < 8 → (c.outcomes (c.log.length + j)).err = none :=
      fun j _ => hhealthy _
    have hfirst := Collect_ok c hall
    refine ⟨by rw [hfirst, List.map_map]; rfl, ?_⟩
    rw [hfirst]
    dsimp only
    rw [Collect_ok { c with log := c.log ++ (List.range 8).map specFrame }
      (fun j _ => hhealthy _), List.map_map]
    dsimp only
    rw [log_length c 8]
    rfl
  · intro hpre hfail hnext
    obtain ⟨e, he⟩ := Option.ne_none_iff_exists'.mp hfail
    have hfirst := Collect_fail (newMcp3008Collector c) 3 (by decide) e hpre he
    have hnext2 : ∀ j, j < 8 →
        (c.outcomes ((c.log ++ (List.range (3 + 1)).map specFrame).length + j)).err = none := by
      intro j hj
      rw [log_length c (3 + 1)]
      exact hnext j hj
    have hsecond :=
      Collect_ok { c with log := c.log ++ (List.range (3 + 1)).map specFrame } hnext2
    refine ⟨by rw [hfirst], ?_, ?_⟩
    · rw [hfirst]
      exact (congrArg (fun r => r.sent.length) hsecond).trans rfl
    · rw [hfirst]
      refine (congrArg (fun r => r.sent.map fun m => m.value) hsecond).trans ?_
      dsimp only
      rw [List.map_map, log_length c (3 + 1)]
      rfl

/-- Witness for C9: on the bus that fails on its transfer number 3 and answers
`0x00 0xFF n` to any other transfer number `n`, the first cycle sends nothing
and the second sends the decodes of the transfers 4 to 11; a healthy bus with a
past and the same bus without one send the same metrics. -/
theorem Collect_memoryless_witness :
    ((newMcp3008Collector (failAt 3)).Collect.sent = []
        ∧ (newMcp3008Collector (failAt 3)).Collect.c.Collect.sent.length = 8
        ∧ (newMcp3008Collector (failAt 3)).Collect.c.Collect.sent.map (fun m => m.value)
            = ((List.range 8).map fun i =>
                (((failAt 3).outcomes ((failAt 3).log.length + 4 + i)).reading : ℚ)))
      ∧ (newMcp3008Collector (withPast (constBus 0 3 9) [[1, 0x80, 0]])).Collect.sent
          = (newMcp3008Collector (constBus 0 3 9)).Collect.sent
      ∧ ((newMcp3008Collector (constBus 0 3 9)).Collect.sent.map (fun m => m.value)
            = ((List.range 8).map fun i =>
                (((constBus 0 3 9).outcomes ((constBus 0 3 9).log.length + i)).reading : ℚ))
          ∧ (newMcp3008Collector (constBus 0 3 9)).Collect.c.Collect.sent.map (fun m => m.value)
            = ((List.range 8).map fun i =>
                (((constBus 0 3 9).outcomes
                    ((constBus 0 3 9).log.length + 8 + i)).reading : ℚ))) :=
  ⟨(Collect_memoryless (failAt 3) (failAt 3)).2.2.2 (by decide) (by decide) (by decide),
   (Collect_memoryless (constBus 0 3 9) (withPast (constBus 0 3 9) [[1, 0x80, 0]])).2.1
     (fun _ _ _ => rfl),
   (Collect_memoryless (constBus 0 3 9) (constBus 0 3 9)).2.2.1 (fun _ => rfl)⟩

end Mcp3008
